import Mathlib

/-!
Shallow embedding of the task-tracker server (Express + SQLite, single file).
The model covers the owner-scoped task CRUD core: the `tasks` table rows, the
prepared statements (owner-scoped SELECT/INSERT/UPDATE/DELETE), and the four
task route handlers (list, create, update, delete).  JSON body values are
modelled by `JVal` so that JavaScript `typeof` checks, truthiness and
`String(...)` coercion can be embedded faithfully.  The DB-generated
`created_at` timestamp column (real time) is outside the model; no claim
mentions it and no handler reads or writes it.
-/

namespace TaskTracker

/-- A JSON-ish JavaScript value as seen by the route handlers: a body field is
either absent from the object (`absent`, JS `undefined`), JSON `null`, a
string, a boolean, or a number. -/
inductive JVal where
  | absent
  | jnull
  | jstr (s : String)
  | jbool (b : Bool)
  | jnum (n : Int)
deriving DecidableEq

/-- JS `typeof v === "string"` : `some` of the string when `v` is a string. -/
def JVal.asString : JVal → Option String
  | .jstr s => some s
  | _ => none

/-- JS `typeof v === "boolean"` : `some` of the boolean when `v` is a boolean. -/
def JVal.asBool : JVal → Option Bool
  | .jbool b => some b
  | _ => none

/-- JS falsiness of the modelled values: `undefined`, `null`, `""`, `false`,
`0` are falsy. -/
def JVal.falsy : JVal → Bool
  | .absent => true
  | .jnull => true
  | .jstr s => s == ""
  | .jbool b => !b
  | .jnum n => n == 0

/-- Whether the key was absent from the body (JS `undefined` after the
`Object.hasOwn` check). -/
def JVal.isAbsent : JVal → Bool
  | .absent => true
  | _ => false

/-- JS `String(v)` coercion on the modelled values. -/
def JVal.toStr : JVal → String
  | .absent => "undefined"
  | .jnull => "null"
  | .jstr s => s
  | .jbool true => "true"
  | .jbool false => "false"
  | .jnum n => toString n

/-- JS `String(v || d)` where `d` is a string default. -/
def JVal.strOr (v : JVal) (d : String) : String :=
  if v.falsy then d else v.toStr

/-- JS `String.prototype.trim`: drop whitespace from both ends, written over
the character list so that it evaluates by kernel reduction. -/
def jsTrim (s : String) : String :=
  String.mk (((s.data.dropWhile Char.isWhitespace).reverse.dropWhile
    Char.isWhitespace).reverse)

/-- A row of the `tasks` table. -/
structure Task where
  id : Nat
  owner_id : Nat
  title : String
  completed : Bool
  priority : String
  status : String
  due_date : Option String
deriving DecidableEq

/-- The `tasks` table. -/
abbrev Store := List Task

/-- A request body for POST /api/tasks or PUT /api/tasks/:id; each field of
interest to the handlers, as a `JVal` (`absent` when the key is missing). -/
structure ReqBody where
  title : JVal
  completed : JVal
  priority : JVal
  status : JVal
  dueDate : JVal
deriving DecidableEq

/-- The body `{}` with no keys. -/
def emptyBody : ReqBody :=
  { title := .absent, completed := .absent, priority := .absent,
    status := .absent, dueDate := .absent }

/-- `allowedPriorities` set from both handlers. -/
def allowedPriorities : List String := ["pt", "strength", "cardio", "group"]

/-- `allowedStatuses` set from both handlers. -/
def allowedStatuses : List String := ["scheduled", "completed", "canceled", "no_show"]

/-- Outcome of the update and delete routes: 404, 400 with the error message,
or 200 `{success:true}`. -/
inductive ApiResult where
  | notFound
  | validationError (msg : String)
  | ok
deriving DecidableEq

/-- The JSON object returned by the create route on 201. -/
structure TaskResponse where
  id : Nat
  title : String
  completed : Bool
  priority : String
  status : String
  dueDate : Option String
deriving DecidableEq

/-- Outcome of the create route: 400 with the error message, or 201 with the
created record. -/
inductive CreateResult where
  | validationError (msg : String)
  | created (resp : TaskResponse)
deriving DecidableEq

/-- `stmtFindTaskForUser`: SELECT id FROM tasks WHERE id = ? AND owner_id = ?,
read as an existence check. -/
def findTaskForUser (store : Store) (taskId userId : Nat) : Bool :=
  store.any fun t => t.id == taskId && t.owner_id == userId

/-- Apply `f` to a row when it matches the owner-scoped WHERE clause
`id = taskId AND owner_id = userId`. -/
def appIf (taskId userId : Nat) (f : Task → Task) (t : Task) : Task :=
  if t.id == taskId && t.owner_id == userId then f t else t

/-- An owner-scoped UPDATE statement: map `f` over the matching rows. -/
def runUpdate (store : Store) (taskId userId : Nat) (f : Task → Task) : Store :=
  store.map (appIf taskId userId f)

/-- SET title = ?. -/
def setTitle (v : String) (t : Task) : Task := { t with title := v }

/-- SET completed = ?. -/
def setCompleted (b : Bool) (t : Task) : Task := { t with completed := b }

/-- SET priority = ?. -/
def setPriority (v : String) (t : Task) : Task := { t with priority := v }

/-- SET status = ?. -/
def setStatus (v : String) (t : Task) : Task := { t with status := v }

/-- SET due_date = ?. -/
def setDueDate (v : Option String) (t : Task) : Task := { t with due_date := v }

/-- Insert a task row, keeping rows in insertion order (ids ascend). -/
def insertTask (store : Store) (t : Task) : Store := store ++ [t]

/-- The next AUTOINCREMENT rowid: one more than the largest id present. -/
def nextId (store : Store) : Nat :=
  store.foldr (fun t m => max t.id m) 0 + 1

/-- Insert a task keeping the list sorted by id descending (ORDER BY id DESC). -/
def insertByIdDesc (t : Task) : List Task → List Task
  | [] => [t]
  | u :: us => if u.id ≤ t.id then t :: u :: us else u :: insertByIdDesc t us

/-- Sort rows by id descending (ORDER BY id DESC). -/
def sortByIdDesc : List Task → List Task
  | [] => []
  | t :: ts => insertByIdDesc t (sortByIdDesc ts)

/-- `stmtGetAllTasksForUser`: SELECT ... FROM tasks WHERE owner_id = ?
ORDER BY id DESC (GET /api/tasks). -/
def listForOwner (store : Store) (ownerId : Nat) : List Task :=
  sortByIdDesc (store.filter fun t => t.owner_id == ownerId)

/-- DELETE /api/tasks/:id : owner-scoped delete, 404 when `changes` is 0. -/
def deleteTask (store : Store) (taskId userId : Nat) : ApiResult × Store :=
  let remaining := store.filter fun t => !(t.id == taskId && t.owner_id == userId)
  let changes := store.length - remaining.length
  if changes == 0 then (ApiResult.notFound, store) else (ApiResult.ok, remaining)

/-- POST /api/tasks : normalize fields, validate title length and the two
enumerations in order, then insert and echo the created record. -/
def createTask (store : Store) (userId : Nat) (body : ReqBody) :
    CreateResult × Store :=
  let title := jsTrim (body.title.strOr "")
  let priority := jsTrim (body.priority.strOr "pt")
  let status := jsTrim (body.status.strOr "scheduled")
  let dueDate : Option String :=
    if body.dueDate.falsy then none else some (jsTrim body.dueDate.toStr)
  let completed :=
    match body.completed.asBool with
    | some b => b
    | none => status == "completed"
  if title.length < 2 then
    (CreateResult.validationError "Title must be at least 2 characters.", store)
  else if !(allowedPriorities.contains priority) then
    (CreateResult.validationError "Invalid priority value.", store)
  else if !(allowedStatuses.contains status) then
    (CreateResult.validationError "Invalid status value.", store)
  else
    let storedDue : Option String :=
      match dueDate with
      | some s => if s == "" then none else some s
      | none => none
    let id := nextId store
    let task : Task :=
      { id := id, owner_id := userId, title := title, completed := completed,
        priority := priority, status := status, due_date := storedDue }
    (CreateResult.created
      { id := id, title := title, completed := completed, priority := priority,
        status := status, dueDate := storedDue },
      insertTask store task)

/-- A step of the update handler: either an early 400 return carrying the
message and the rows written so far, or the rows to continue with. -/
abbrev UpdStep := Except (String × Store) Store

/-- The `typeof title === "string"` block of PUT /api/tasks/:id. -/
def titleStep (store : Store) (taskId userId : Nat) (v : JVal) : UpdStep :=
  match v.asString with
  | some s =>
    let trimmed := jsTrim s
    if trimmed.length < 2 then
      Except.error ("Title must be at least 2 characters.", store)
    else
      Except.ok (runUpdate store taskId userId (setTitle trimmed))
  | none => Except.ok store

/-- The `typeof completed === "boolean"` write of PUT /api/tasks/:id. -/
def completedStep (store : Store) (taskId userId : Nat) (v : JVal) : Store :=
  match v.asBool with
  | some b => runUpdate store taskId userId (setCompleted b)
  | none => store

/-- The local reassignment inside the completed block: when completed is a
boolean and status is not a string, status becomes the derived string. -/
def deriveStatus (completed status : JVal) : JVal :=
  match completed.asBool with
  | some b =>
    match status.asString with
    | some _ => status
    | none => JVal.jstr (if b then "completed" else "scheduled")
  | none => status

/-- The `typeof priority === "string"` block of PUT /api/tasks/:id. -/
def priorityStep (store : Store) (taskId userId : Nat) (v : JVal) : UpdStep :=
  match v.asString with
  | some p =>
    let normalized := jsTrim p
    if allowedPriorities.contains normalized then
      Except.ok (runUpdate store taskId userId (setPriority normalized))
    else
      Except.error ("Invalid priority value.", store)
  | none => Except.ok store

/-- The `typeof status === "string"` block of PUT /api/tasks/:id; when the
caller did not supply a boolean completed, a derived completed flag is also
written. -/
def statusStep (store : Store) (taskId userId : Nat) (statusV completedV : JVal) :
    UpdStep :=
  match statusV.asString with
  | some s =>
    let normalized := jsTrim s
    if allowedStatuses.contains normalized then
      let s1 := runUpdate store taskId userId (setStatus normalized)
      match completedV.asBool with
      | some _ => Except.ok s1
      | none =>
        Except.ok (runUpdate s1 taskId userId (setCompleted (normalized == "completed")))
    else
      Except.error ("Invalid status value.", store)
  | none => Except.ok store

/-- Normalization of a present dueDate value:
`dueDate === null || String(dueDate).trim() === "" ? null : String(dueDate).trim()`. -/
def normalizeDueDate (v : JVal) : Option String :=
  if v = JVal.jnull then none
  else
    let s := jsTrim v.toStr
    if s == "" then none else some s

/-- The `dueDate !== undefined` block of PUT /api/tasks/:id. -/
def dueDateStep (store : Store) (taskId userId : Nat) (v : JVal) : Store :=
  if v.isAbsent then store
  else runUpdate store taskId userId (setDueDate (normalizeDueDate v))

/-- PUT /api/tasks/:id : owner-scoped existence check first (404), then the
field blocks in source order (title, completed, priority, status, dueDate),
each early 400 return keeping the writes already issued. -/
def updateTask (store : Store) (taskId userId : Nat) (body : ReqBody) :
    ApiResult × Store :=
  if findTaskForUser store taskId userId then
    match titleStep store taskId userId body.title with
    | Except.error (msg, s) => (ApiResult.validationError msg, s)
    | Except.ok s1 =>
      let s2 := completedStep s1 taskId userId body.completed
      let statusV := deriveStatus body.completed body.status
      match priorityStep s2 taskId userId body.priority with
      | Except.error (msg, s) => (ApiResult.validationError msg, s)
      | Except.ok s3 =>
        match statusStep s3 taskId userId statusV body.completed with
        | Except.error (msg, s) => (ApiResult.validationError msg, s)
        | Except.ok s4 => (ApiResult.ok, dueDateStep s4 taskId userId body.dueDate)
  else (ApiResult.notFound, store)

/-- The title constraint checked by the update handler, as a predicate of the
supplied value alone. -/
def titleValid (v : JVal) : Bool :=
  match v.asString with
  | some s => decide (2 ≤ (jsTrim s).length)
  | none => true

/-- The priority constraint checked by the update handler. -/
def priorityValid (v : JVal) : Bool :=
  match v.asString with
  | some p => allowedPriorities.contains (jsTrim p)
  | none => true

/-- The status constraint checked by the update handler (to be applied to the
possibly derived status value). -/
def statusValid (v : JVal) : Bool :=
  match v.asString with
  | some s => allowedStatuses.contains (jsTrim s)
  | none => true

/-- The store after the title block of a successful update. -/
def titleApply (tid uid : Nat) (v : JVal) (s : Store) : Store :=
  match v.asString with
  | some str => runUpdate s tid uid (setTitle (jsTrim str))
  | none => s

/-- The store after the priority block of a successful update. -/
def priorityApply (tid uid : Nat) (v : JVal) (s : Store) : Store :=
  match v.asString with
  | some p => runUpdate s tid uid (setPriority (jsTrim p))
  | none => s

/-- The store after the status block of a successful update. -/
def statusApply (tid uid : Nat) (statusV completedV : JVal) (s : Store) : Store :=
  match statusV.asString with
  | some st =>
    match completedV.asBool with
    | some _ => runUpdate s tid uid (setStatus (jsTrim st))
    | none =>
      runUpdate (runUpdate s tid uid (setStatus (jsTrim st))) tid uid
        (setCompleted (jsTrim st == "completed"))
  | none => s

/-- The net effect of a successful PUT on a matching row: title, completed,
priority, status (possibly derived), derived completed, due date, in the
order the handler issues the writes. -/
def applyBody (body : ReqBody) (t : Task) : Task :=
  let t1 := match body.title.asString with
    | some s => setTitle (jsTrim s) t
    | none => t
  let t2 := match body.completed.asBool with
    | some b => setCompleted b t1
    | none => t1
  let t3 := match body.priority.asString with
    | some p => setPriority (jsTrim p) t2
    | none => t2
  let t4 := match (deriveStatus body.completed body.status).asString with
    | some s =>
      match body.completed.asBool with
      | some _ => setStatus (jsTrim s) t3
      | none => setCompleted (jsTrim s == "completed") (setStatus (jsTrim s) t3)
    | none => t3
  if body.dueDate.isAbsent then t4
  else setDueDate (normalizeDueDate body.dueDate) t4

/-- A row transformer that never changes the id or the owner. -/
def PresIdOwner (f : Task → Task) : Prop :=
  ∀ t, (f t).id = t.id ∧ (f t).owner_id = t.owner_id

lemma presIdOwner_setTitle (v : String) : PresIdOwner (setTitle v) :=
  fun _ => ⟨rfl, rfl⟩

lemma presIdOwner_setCompleted (b : Bool) : PresIdOwner (setCompleted b) :=
  fun _ => ⟨rfl, rfl⟩

lemma presIdOwner_setPriority (v : String) : PresIdOwner (setPriority v) :=
  fun _ => ⟨rfl, rfl⟩

lemma presIdOwner_setStatus (v : String) : PresIdOwner (setStatus v) :=
  fun _ => ⟨rfl, rfl⟩

lemma presIdOwner_setDueDate (v : Option String) : PresIdOwner (setDueDate v) :=
  fun _ => ⟨rfl, rfl⟩

lemma presIdOwner_applyBody (body : ReqBody) : PresIdOwner (applyBody body) := by
  intro t
  unfold applyBody
  cases body.title.asString <;> cases body.completed.asBool <;>
    cases (deriveStatus body.completed body.status).asString <;>
    cases body.priority.asString <;> cases body.dueDate.isAbsent <;>
    simp [setTitle, setCompleted, setPriority, setStatus, setDueDate]

@[simp]
lemma length_runUpdate (s : Store) (tid uid : Nat) (f : Task → Task) :
    (runUpdate s tid uid f).length = s.length :=
  List.length_map s (appIf tid uid f)

lemma findTaskForUser_runUpdate (s : Store) (tid uid tid2 uid2 : Nat)
    (f : Task → Task) (hf : PresIdOwner f) :
    findTaskForUser (runUpdate s tid uid f) tid2 uid2 =
      findTaskForUser s tid2 uid2 := by
  unfold findTaskForUser runUpdate
  induction s with
  | nil => rfl
  | cons t ts ih =>
    simp only [List.map_cons, List.any_cons, ih]
    congr 1
    unfold appIf
    split
    · simp [(hf t).1, (hf t).2]
    · rfl

lemma titleStep_ok (s : Store) (tid uid : Nat) (v : JVal)
    (ht : titleValid v = true) :
    titleStep s tid uid v = Except.ok (titleApply tid uid v s) := by
  rcases hT : v.asString with _ | str <;>
    simp only [titleStep, titleApply, hT]
  simp only [titleValid, hT, decide_eq_true_eq] at ht
  rw [if_neg (Nat.not_lt.mpr ht)]

lemma priorityStep_ok (s : Store) (tid uid : Nat) (v : JVal)
    (hp : priorityValid v = true) :
    priorityStep s tid uid v = Except.ok (priorityApply tid uid v s) := by
  rcases hP : v.asString with _ | p <;>
    simp only [priorityStep, priorityApply, hP]
  simp only [priorityValid, hP] at hp
  rw [if_pos hp]

lemma statusStep_ok (s : Store) (tid uid : Nat) (statusV completedV : JVal)
    (hs : statusValid statusV = true) :
    statusStep s tid uid statusV completedV =
      Except.ok (statusApply tid uid statusV completedV s) := by
  rcases hS : statusV.asString with _ | st <;>
    simp only [statusStep, statusApply, hS]
  simp only [statusValid, hS] at hs
  rw [if_pos hs]
  rcases completedV.asBool with _ | b <;> rfl

lemma updateTask_ok_pipeline (store : Store) (tid uid : Nat) (body : ReqBody)
    (hfind : findTaskForUser store tid uid = true)
    (ht : titleValid body.title = true)
    (hp : priorityValid body.priority = true)
    (hs : statusValid (deriveStatus body.completed body.status) = true) :
    updateTask store tid uid body =
      (ApiResult.ok,
        dueDateStep
          (statusApply tid uid (deriveStatus body.completed body.status)
            body.completed
            (priorityApply tid uid body.priority
              (completedStep (titleApply tid uid body.title store) tid uid
                body.completed)))
          tid uid body.dueDate) := by
  unfold updateTask
  rw [if_pos hfind, titleStep_ok _ _ _ _ ht]
  dsimp only
  rw [priorityStep_ok _ _ _ _ hp]
  dsimp only
  rw [statusStep_ok _ _ _ _ _ hs]

lemma asString_jstr (s : String) : (JVal.jstr s).asString = some s := rfl

lemma pipeline_eq_runUpdate (store : Store) (tid uid : Nat) (body : ReqBody) :
    dueDateStep
      (statusApply tid uid (deriveStatus body.completed body.status)
        body.completed
        (priorityApply tid uid body.priority
          (completedStep (titleApply tid uid body.title store) tid uid
            body.completed)))
      tid uid body.dueDate
      = runUpdate store tid uid (applyBody body) := by
  rcases hT : body.title.asString with _ | s <;>
  rcases hC : body.completed.asBool with _ | b <;>
  rcases hS : body.status.asString with _ | st <;>
  rcases hD : body.dueDate.isAbsent with _ | _ <;>
  rcases hP : body.priority.asString with _ | p <;>
  · simp only [titleApply, completedStep, priorityApply, statusApply,
      dueDateStep, deriveStatus, applyBody, hT, hC, hS, hD, hP, asString_jstr,
      Bool.false_eq_true, if_false, if_true]
    apply List.ext_getElem
    · simp [runUpdate]
    · intro i h1 h2
      have hi : i < store.length := by simpa using h2
      simp only [runUpdate, List.getElem_map]
      by_cases hm : (store[i].id == tid && store[i].owner_id == uid) = true <;>
        simp [appIf, hm, applyBody, deriveStatus, hT, hC, hS, hD, hP,
          asString_jstr, setTitle, setCompleted, setPriority, setStatus,
          setDueDate]

lemma updateTask_ok_eq (store : Store) (tid uid : Nat) (body : ReqBody)
    (hfind : findTaskForUser store tid uid = true)
    (ht : titleValid body.title = true)
    (hp : priorityValid body.priority = true)
    (hs : statusValid (deriveStatus body.completed body.status) = true) :
    updateTask store tid uid body =
      (ApiResult.ok, runUpdate store tid uid (applyBody body)) := by
  rw [updateTask_ok_pipeline store tid uid body hfind ht hp hs,
    pipeline_eq_runUpdate]

lemma titleValid_of_step (s s1 : Store) (tid uid : Nat) (v : JVal)
    (h : titleStep s tid uid v = Except.ok s1) : titleValid v = true := by
  rcases hT : v.asString with _ | str <;>
    simp only [titleStep, titleValid, hT] at h ⊢
  by_cases hl : (jsTrim str).length < 2
  · rw [if_pos hl] at h
    simp at h
  · exact decide_eq_true (Nat.not_lt.mp hl)

lemma priorityValid_of_step (s s1 : Store) (tid uid : Nat) (v : JVal)
    (h : priorityStep s tid uid v = Except.ok s1) : priorityValid v = true := by
  rcases hP : v.asString with _ | p <;>
    simp only [priorityStep, priorityValid, hP] at h ⊢
  by_cases hc : allowedPriorities.contains (jsTrim p) = true
  · exact hc
  · rw [if_neg hc] at h
    simp at h

lemma statusValid_of_step (s s1 : Store) (tid uid : Nat) (sv cv : JVal)
    (h : statusStep s tid uid sv cv = Except.ok s1) : statusValid sv = true := by
  rcases hS : sv.asString with _ | st <;>
    simp only [statusStep, statusValid, hS] at h ⊢
  by_cases hc : allowedStatuses.contains (jsTrim st) = true
  · exact hc
  · rw [if_neg hc] at h
    simp at h

lemma updateTask_fst_ok (store : Store) (tid uid : Nat) (body : ReqBody)
    (h : (updateTask store tid uid body).fst = ApiResult.ok) :
    findTaskForUser store tid uid = true ∧ titleValid body.title = true ∧
      priorityValid body.priority = true ∧
      statusValid (deriveStatus body.completed body.status) = true := by
  unfold updateTask at h
  split at h
  case isFalse hfind => simp at h
  case isTrue hfind =>
    split at h
    case h_1 e msg s heq => simp at h
    case h_2 s1 heq =>
      dsimp only at h
      split at h
      case h_1 e msg s heq2 => simp at h
      case h_2 s3 heq2 =>
        split at h
        case h_1 e msg s heq3 => simp at h
        case h_2 s4 heq3 =>
          exact ⟨hfind, titleValid_of_step _ _ _ _ _ heq,
            priorityValid_of_step _ _ _ _ _ heq2,
            statusValid_of_step _ _ _ _ _ _ heq3⟩

lemma applyBody_id (body : ReqBody) (t : Task) :
    (applyBody body t).id = t.id := (presIdOwner_applyBody body t).1

lemma applyBody_owner (body : ReqBody) (t : Task) :
    (applyBody body t).owner_id = t.owner_id := (presIdOwner_applyBody body t).2

lemma applyBody_title (body : ReqBody) (t : Task) :
    (applyBody body t).title =
      match body.title.asString with
      | some s => jsTrim s
      | none => t.title := by
  rcases hT : body.title.asString with _ | s <;>
  rcases hC : body.completed.asBool with _ | b <;>
  rcases hS : body.status.asString with _ | st <;>
  rcases hD : body.dueDate.isAbsent with _ | _ <;>
  rcases hP : body.priority.asString with _ | p <;>
  simp [applyBody, deriveStatus, hT, hC, hS, hD, hP, asString_jstr,
    setTitle, setCompleted, setPriority, setStatus, setDueDate]

lemma applyBody_priority (body : ReqBody) (t : Task) :
    (applyBody body t).priority =
      match body.priority.asString with
      | some p => jsTrim p
      | none => t.priority := by
  rcases hT : body.title.asString with _ | s <;>
  rcases hC : body.completed.asBool with _ | b <;>
  rcases hS : body.status.asString with _ | st <;>
  rcases hD : body.dueDate.isAbsent with _ | _ <;>
  rcases hP : body.priority.asString with _ | p <;>
  simp [applyBody, deriveStatus, hT, hC, hS, hD, hP, asString_jstr,
    setTitle, setCompleted, setPriority, setStatus, setDueDate]

lemma applyBody_status (body : ReqBody) (t : Task) :
    (applyBody body t).status =
      match (deriveStatus body.completed body.status).asString with
      | some s => jsTrim s
      | none => t.status := by
  rcases hT : body.title.asString with _ | s <;>
  rcases hC : body.completed.asBool with _ | b <;>
  rcases hS : body.status.asString with _ | st <;>
  rcases hD : body.dueDate.isAbsent with _ | _ <;>
  rcases hP : body.priority.asString with _ | p <;>
  simp [applyBody, deriveStatus, hT, hC, hS, hD, hP, asString_jstr,
    setTitle, setCompleted, setPriority, setStatus, setDueDate]

lemma applyBody_completed (body : ReqBody) (t : Task) :
    (applyBody body t).completed =
      match body.completed.asBool with
      | some b => b
      | none =>
        match body.status.asString with
        | some s => (jsTrim s == "completed")
        | none => t.completed := by
  rcases hT : body.title.asString with _ | s <;>
  rcases hC : body.completed.asBool with _ | b <;>
  rcases hS : body.status.asString with _ | st <;>
  rcases hD : body.dueDate.isAbsent with _ | _ <;>
  rcases hP : body.priority.asString with _ | p <;>
  simp [applyBody, deriveStatus, hT, hC, hS, hD, hP, asString_jstr,
    setTitle, setCompleted, setPriority, setStatus, setDueDate]

lemma applyBody_due (body : ReqBody) (t : Task) :
    (applyBody body t).due_date =
      if body.dueDate.isAbsent then t.due_date
      else normalizeDueDate body.dueDate := by
  rcases hT : body.title.asString with _ | s <;>
  rcases hC : body.completed.asBool with _ | b <;>
  rcases hS : body.status.asString with _ | st <;>
  rcases hD : body.dueDate.isAbsent with _ | _ <;>
  rcases hP : body.priority.asString with _ | p <;>
  simp [applyBody, deriveStatus, hT, hC, hS, hD, hP, asString_jstr,
    setTitle, setCompleted, setPriority, setStatus, setDueDate]

lemma applyBody_idem (body : ReqBody) (t : Task) :
    applyBody body (applyBody body t) = applyBody body t := by
  rcases hT : body.title.asString with _ | s <;>
  rcases hC : body.completed.asBool with _ | b <;>
  rcases hS : body.status.asString with _ | st <;>
  rcases hD : body.dueDate.isAbsent with _ | _ <;>
  rcases hP : body.priority.asString with _ | p <;>
  simp [applyBody, deriveStatus, hT, hC, hS, hD, hP, asString_jstr,
    setTitle, setCompleted, setPriority, setStatus, setDueDate]

lemma runUpdate_applyBody_idem (store : Store) (tid uid : Nat) (body : ReqBody) :
    runUpdate (runUpdate store tid uid (applyBody body)) tid uid
      (applyBody body) = runUpdate store tid uid (applyBody body) := by
  unfold runUpdate
  rw [List.map_map]
  apply List.map_congr_left
  intro t _
  by_cases hm : (t.id == tid && t.owner_id == uid) = true <;>
    simp [Function.comp, appIf, hm, applyBody_id, applyBody_owner,
      applyBody_idem]

end TaskTracker

namespace TaskTracker

/-- Primary-key uniqueness of the `tasks` table: distinct rows have distinct
ids. -/
def UniqueIds (store : Store) : Prop :=
  store.Pairwise fun a b => a.id ≠ b.id

lemma eq_of_uniqueIds {store : Store} (h : UniqueIds store) {u t : Task}
    (hu : u ∈ store) (ht : t ∈ store) (hid : u.id = t.id) : u = t := by
  induction store with
  | nil => cases hu
  | cons x xs ih =>
    rw [UniqueIds, List.pairwise_cons] at h
    obtain ⟨hx, hxs⟩ := h
    rcases List.mem_cons.mp hu with rfl | hu2 <;>
      rcases List.mem_cons.mp ht with rfl | ht2
    · rfl
    · exact absurd hid (hx _ ht2)
    · exact absurd hid.symm (hx _ hu2)
    · exact ih hxs hu2 ht2

lemma mem_insertByIdDesc {t a : Task} {l : List Task} :
    a ∈ insertByIdDesc t l ↔ a = t ∨ a ∈ l := by
  induction l with
  | nil => simp [insertByIdDesc]
  | cons u us ih =>
    simp only [insertByIdDesc]
    split
    · simp [List.mem_cons]
    · simp only [List.mem_cons, ih]
      tauto

lemma mem_sortByIdDesc {a : Task} {l : List Task} :
    a ∈ sortByIdDesc l ↔ a ∈ l := by
  induction l with
  | nil => simp [sortByIdDesc]
  | cons t ts ih => simp [sortByIdDesc, mem_insertByIdDesc, ih]

lemma findTaskForUser_eq_false {store : Store} {A B : Nat} {t : Task}
    (huniq : UniqueIds store) (ht : t ∈ store) (hA : t.owner_id = A)
    (hAB : A ≠ B) : findTaskForUser store t.id B = false := by
  rw [findTaskForUser, List.any_eq_false]
  intro u hu
  simp only [Bool.and_eq_true, beq_iff_eq, not_and]
  intro hid hB
  have : u = t := eq_of_uniqueIds huniq hu ht hid
  subst this
  exact hAB (hA ▸ hB ▸ rfl)

/-- C1 (owner isolation): a task owned by A is never returned by
`listForOwner B`, an update of it by B yields `notFound` and leaves the store
unchanged, and a delete of it by B yields `notFound` and leaves the store
unchanged, for any distinct identities A and B. -/
theorem owner_isolation (store : Store) (A B : Nat) (t : Task) (body : ReqBody)
    (huniq : UniqueIds store) (ht : t ∈ store) (hA : t.owner_id = A)
    (hAB : A ≠ B) :
    t ∉ listForOwner store B ∧
    updateTask store t.id B body = (ApiResult.notFound, store) ∧
    deleteTask store t.id B = (ApiResult.notFound, store) := by
  have hfind := findTaskForUser_eq_false huniq ht hA hAB
  refine ⟨?_, ?_, ?_⟩
  · intro hmem
    rw [listForOwner, mem_sortByIdDesc] at hmem
    have := List.of_mem_filter hmem
    rw [beq_iff_eq] at this
    exact hAB (hA ▸ this ▸ rfl)
  · unfold updateTask
    rw [if_neg (by simp [hfind])]
  · have hfilter :
        store.filter (fun u => !(u.id == t.id && u.owner_id == B)) = store := by
      apply List.filter_eq_self.mpr
      intro u hu
      have h2 := (List.any_eq_false.mp hfind) u hu
      simp only [Bool.not_eq_true] at h2
      rw [h2]
      rfl
    dsimp only [deleteTask]
    rw [hfilter]
    simp

end TaskTracker

namespace TaskTracker

/-- A sample stored task owned by user 1. -/
def sampleTask : Task :=
  { id := 1, owner_id := 1, title := "Jane", completed := false,
    priority := "pt", status := "scheduled", due_date := none }

/-- A body whose every field is invalid. -/
def invalidBody : ReqBody :=
  { title := .jstr "x", completed := .jstr "true", priority := .jstr "bogus",
    status := .jstr "nope", dueDate := .jnull }

theorem owner_isolation_witness :
    sampleTask ∉ listForOwner [sampleTask] 2 ∧
    updateTask [sampleTask] sampleTask.id 2 emptyBody =
      (ApiResult.notFound, [sampleTask]) ∧
    deleteTask [sampleTask] sampleTask.id 2 =
      (ApiResult.notFound, [sampleTask]) :=
  owner_isolation [sampleTask] 1 2 sampleTask emptyBody
    (by simp [UniqueIds]) (by simp) rfl (by decide)

/-- C8 (ownership check precedes validation): an update naming a task that is
not owned by the caller answers `notFound` whatever the body holds and leaves
the store unchanged; an update of an owned task with an empty body answers
`ok` and leaves the store unchanged. -/
theorem ownership_check_precedes_validation (store : Store) (tid uid : Nat)
    (body : ReqBody) :
    (findTaskForUser store tid uid = false →
      updateTask store tid uid body = (ApiResult.notFound, store)) ∧
    (findTaskForUser store tid uid = true →
      updateTask store tid uid emptyBody = (ApiResult.ok, store)) := by
  constructor
  · intro h
    unfold updateTask
    rw [if_neg (by simp [h])]
  · intro h
    unfold updateTask
    rw [if_pos h]
    rfl

theorem ownership_check_precedes_validation_witness :
    updateTask [sampleTask] 5 2 invalidBody = (ApiResult.notFound, [sampleTask]) ∧
    updateTask [sampleTask] 1 1 emptyBody = (ApiResult.ok, [sampleTask]) :=
  ⟨(ownership_check_precedes_validation [sampleTask] 5 2 invalidBody).1 (by decide),
   (ownership_check_precedes_validation [sampleTask] 1 1 emptyBody).2 (by decide)⟩

lemma mem_runUpdate {u : Task} {s : Store} {tid uid : Nat} {f : Task → Task}
    (hu : u ∈ runUpdate s tid uid f) : ∃ w ∈ s, u = appIf tid uid f w := by
  rw [runUpdate] at hu
  obtain ⟨w, hw, rfl⟩ := List.mem_map.mp hu
  exact ⟨w, hw, rfl⟩

lemma matching_of_mem_runUpdate {u : Task} {s : Store} {tid uid : Nat}
    {f : Task → Task} (hu : u ∈ runUpdate s tid uid f)
    (hid : u.id = tid) (howner : u.owner_id = uid) :
    ∃ w ∈ s, (w.id = tid ∧ w.owner_id = uid) ∧ u = f w := by
  obtain ⟨w, hw, rfl⟩ := mem_runUpdate hu
  by_cases hm : (w.id == tid && w.owner_id == uid) = true
  · refine ⟨w, hw, by simpa using hm, ?_⟩
    rw [appIf, if_pos hm]
  · rw [appIf, if_neg hm] at hid howner
    exact absurd (by simp [hid, howner]) hm

/-- C2 (status/completed sync with precedence): for a successful update of an
owned task, supplying status "completed" without a boolean completed stores
completed = true; supplying completed = false without a string status stores
status "scheduled"; and supplying a boolean completed together with a string
status stores exactly the supplied completed value. -/
theorem status_completed_sync (store : Store) (tid uid : Nat) (body : ReqBody)
    (hok : (updateTask store tid uid body).fst = ApiResult.ok) :
    (body.status = JVal.jstr "completed" → body.completed.asBool = none →
      ∀ u ∈ (updateTask store tid uid body).snd,
        u.id = tid → u.owner_id = uid → u.completed = true) ∧
    (body.completed = JVal.jbool false → body.status.asString = none →
      ∀ u ∈ (updateTask store tid uid body).snd,
        u.id = tid → u.owner_id = uid → u.status = "scheduled") ∧
    (∀ (b : Bool) (st : String), body.completed = JVal.jbool b →
      body.status = JVal.jstr st →
      ∀ u ∈ (updateTask store tid uid body).snd,
        u.id = tid → u.owner_id = uid → u.completed = b) := by
  obtain ⟨hfind, ht, hp, hs⟩ := updateTask_fst_ok _ _ _ _ hok
  have heq := updateTask_ok_eq store tid uid body hfind ht hp hs
  rw [heq]
  refine ⟨?_, ?_, ?_⟩
  · intro hst hcb u hu hid howner
    obtain ⟨w, hw, ⟨hwid, hwo⟩, rfl⟩ := matching_of_mem_runUpdate hu hid howner
    rw [applyBody_completed, hcb, hst]
    rfl
  · intro hcb hst u hu hid howner
    obtain ⟨w, hw, ⟨hwid, hwo⟩, rfl⟩ := matching_of_mem_runUpdate hu hid howner
    rw [applyBody_status, deriveStatus, hcb, hst]
    rfl
  · intro b st hcb hst u hu hid howner
    obtain ⟨w, hw, ⟨hwid, hwo⟩, rfl⟩ := matching_of_mem_runUpdate hu hid howner
    rw [applyBody_completed, hcb]
    rfl

end TaskTracker

namespace TaskTracker

/-- C7 (update idempotence): repeating a successful update with the identical
body returns the same result and the same stored state as the first
application. -/
theorem update_idempotent (store : Store) (tid uid : Nat) (body : ReqBody)
    (hok : (updateTask store tid uid body).fst = ApiResult.ok) :
    updateTask (updateTask store tid uid body).snd tid uid body =
      updateTask store tid uid body := by
  obtain ⟨hfind, ht, hp, hs⟩ := updateTask_fst_ok _ _ _ _ hok
  have h1 := updateTask_ok_eq store tid uid body hfind ht hp hs
  have hfind2 :
      findTaskForUser (runUpdate store tid uid (applyBody body)) tid uid
        = true := by
    rw [findTaskForUser_runUpdate _ _ _ _ _ _ (presIdOwner_applyBody body)]
    exact hfind
  have h2 := updateTask_ok_eq (runUpdate store tid uid (applyBody body))
    tid uid body hfind2 ht hp hs
  rw [h1]
  dsimp only
  rw [h2, runUpdate_applyBody_idem]

/-- A body exercising several fields at once. -/
def fullBody : ReqBody :=
  { title := .jstr " Gym session ", completed := .absent,
    priority := .jstr "cardio", status := .jstr "completed",
    dueDate := .jstr "2024-06-01" }

theorem update_idempotent_witness :
    updateTask (updateTask [sampleTask] 1 1 fullBody).snd 1 1 fullBody =
      updateTask [sampleTask] 1 1 fullBody :=
  update_idempotent [sampleTask] 1 1 fullBody (by decide)

/-- A stored task whose status is "canceled". -/
def canceledTask : Task :=
  { id := 1, owner_id := 1, title := "Jane", completed := false,
    priority := "pt", status := "canceled", due_date := none }

/-- The body `{completed: true}`. -/
def completedTrueBody : ReqBody := { emptyBody with completed := .jbool true }

theorem partial_update_frame_cex :
    (updateTask [canceledTask] 1 1 completedTrueBody).fst = ApiResult.ok ∧
    (updateTask [canceledTask] 1 1 completedTrueBody).snd =
      [{ canceledTask with completed := true, status := "completed" }] ∧
    ("completed" : String) ≠ canceledTask.status := by decide

/-- C4 amended (partial-update frame condition): for a successful update of an
owned task, each row keeps its id and owner; a title, priority or dueDate key
absent from the body leaves that column unchanged; and when completed and
status are both absent, both columns are unchanged.  (When exactly one of
completed/status is supplied the other is overwritten with a derived value —
see the counterexample.) -/
theorem partial_update_frame_amended (store : Store) (tid uid : Nat)
    (body : ReqBody)
    (hok : (updateTask store tid uid body).fst = ApiResult.ok) :
    (updateTask store tid uid body).snd.length = store.length ∧
    ∀ (i : Nat) (h1 : i < store.length)
      (h2 : i < (updateTask store tid uid body).snd.length),
      (updateTask store tid uid body).snd[i].id = store[i].id ∧
      (updateTask store tid uid body).snd[i].owner_id = store[i].owner_id ∧
      (body.title.asString = none →
        (updateTask store tid uid body).snd[i].title = store[i].title) ∧
      (body.priority.asString = none →
        (updateTask store tid uid body).snd[i].priority = store[i].priority) ∧
      (body.dueDate.isAbsent = true →
        (updateTask store tid uid body).snd[i].due_date = store[i].due_date) ∧
      (body.completed.asBool = none → body.status.asString = none →
        (updateTask store tid uid body).snd[i].completed = store[i].completed ∧
        (updateTask store tid uid body).snd[i].status = store[i].status) := by
  obtain ⟨hfind, ht, hp, hs⟩ := updateTask_fst_ok _ _ _ _ hok
  rw [updateTask_ok_eq store tid uid body hfind ht hp hs]
  constructor
  · simp
  · intro i h1 h2
    dsimp only
    simp only [runUpdate, List.getElem_map]
    by_cases hm : (store[i].id == tid && store[i].owner_id == uid) = true
    · rw [appIf, if_pos hm]
      refine ⟨applyBody_id _ _, applyBody_owner _ _, ?_, ?_, ?_, ?_⟩
      · intro hT
        rw [applyBody_title, hT]
      · intro hP
        rw [applyBody_priority, hP]
      · intro hD
        rw [applyBody_due, hD]
        rfl
      · intro hC hS
        constructor
        · rw [applyBody_completed, hC, hS]
        · rw [applyBody_status, deriveStatus, hC, hS]
    · rw [appIf, if_neg hm]
      exact ⟨rfl, rfl, fun _ => rfl, fun _ => rfl, fun _ => rfl,
        fun _ _ => ⟨rfl, rfl⟩⟩

/-- The body `{title: "Gym"}`. -/
def titleGymBody : ReqBody := { emptyBody with title := .jstr "Gym" }

theorem partial_update_frame_amended_witness :
    (updateTask [sampleTask] 1 1 titleGymBody).snd.length =
      ([sampleTask] : Store).length :=
  (partial_update_frame_amended [sampleTask] 1 1 titleGymBody (by decide)).1

end TaskTracker

namespace TaskTracker

/-- The body `{status: "completed"}`. -/
def statusCompletedBody : ReqBody := { emptyBody with status := .jstr "completed" }

/-- The body `{completed: false}`. -/
def completedFalseBody : ReqBody := { emptyBody with completed := .jbool false }

/-- The body `{completed: true, status: "canceled"}`. -/
def bothSuppliedBody : ReqBody :=
  { emptyBody with completed := .jbool true, status := .jstr "canceled" }

theorem status_completed_sync_witness :
    ({ sampleTask with status := "completed", completed := true } : Task).completed
        = true ∧
    ({ canceledTask with completed := false, status := "scheduled" } : Task).status
        = "scheduled" ∧
    ({ sampleTask with completed := true, status := "canceled" } : Task).completed
        = true :=
  ⟨(status_completed_sync [sampleTask] 1 1 statusCompletedBody (by decide)).1
      (by decide) (by decide) _ (by decide) (by decide) (by decide),
   (status_completed_sync [canceledTask] 1 1 completedFalseBody (by decide)).2.1
      (by decide) (by decide) _ (by decide) (by decide) (by decide),
   (status_completed_sync [sampleTask] 1 1 bothSuppliedBody (by decide)).2.2
      true "canceled" (by decide) (by decide) _ (by decide) (by decide)
      (by decide)⟩

/-- C10 (clearing the due date): for a successful update of an owned task,
supplying dueDate null clears the stored due_date; supplying a string that
trims to empty clears it; supplying a string with nonempty trim stores the
trimmed string; and when the dueDate key is absent every row keeps its
due_date. -/
theorem due_date_clearing (store : Store) (tid uid : Nat) (body : ReqBody)
    (hok : (updateTask store tid uid body).fst = ApiResult.ok) :
    (body.dueDate = JVal.jnull →
      ∀ u ∈ (updateTask store tid uid body).snd,
        u.id = tid → u.owner_id = uid → u.due_date = none) ∧
    (∀ s : String, body.dueDate = JVal.jstr s → jsTrim s = "" →
      ∀ u ∈ (updateTask store tid uid body).snd,
        u.id = tid → u.owner_id = uid → u.due_date = none) ∧
    (∀ s : String, body.dueDate = JVal.jstr s → jsTrim s ≠ "" →
      ∀ u ∈ (updateTask store tid uid body).snd,
        u.id = tid → u.owner_id = uid → u.due_date = some (jsTrim s)) ∧
    (body.dueDate = JVal.absent →
      ∀ (i : Nat) (h1 : i < store.length)
        (h2 : i < (updateTask store tid uid body).snd.length),
        (updateTask store tid uid body).snd[i].due_date =
          store[i].due_date) := by
  obtain ⟨hfind, ht, hp, hs⟩ := updateTask_fst_ok _ _ _ _ hok
  rw [updateTask_ok_eq store tid uid body hfind ht hp hs]
  refine ⟨?_, ?_, ?_, ?_⟩
  · intro hD u hu hid howner
    obtain ⟨w, hw, ⟨hwid, hwo⟩, rfl⟩ := matching_of_mem_runUpdate hu hid howner
    rw [applyBody_due, hD]
    rfl
  · intro s hD htrim u hu hid howner
    obtain ⟨w, hw, ⟨hwid, hwo⟩, rfl⟩ := matching_of_mem_runUpdate hu hid howner
    rw [applyBody_due, hD]
    simp [normalizeDueDate, JVal.toStr, JVal.isAbsent, htrim]
  · intro s hD htrim u hu hid howner
    obtain ⟨w, hw, ⟨hwid, hwo⟩, rfl⟩ := matching_of_mem_runUpdate hu hid howner
    rw [applyBody_due, hD]
    simp [normalizeDueDate, JVal.toStr, JVal.isAbsent, htrim]
  · intro hD i h1 h2
    dsimp only
    simp only [runUpdate, List.getElem_map]
    by_cases hm : (store[i].id == tid && store[i].owner_id == uid) = true
    · rw [appIf, if_pos hm, applyBody_due, hD]
      rfl
    · rw [appIf, if_neg hm]

/-- C9 (non-boolean completed is silently ignored): a body whose completed
value is not a JSON boolean behaves exactly like the same body with the
completed key absent, on both the create and the update route. -/
theorem nonboolean_completed_ignored (store : Store) (tid uid : Nat)
    (body : ReqBody) (h : body.completed.asBool = none) :
    createTask store uid body =
      createTask store uid { body with completed := JVal.absent } ∧
    updateTask store tid uid body =
      updateTask store tid uid { body with completed := JVal.absent } := by
  constructor
  · unfold createTask
    rw [h]
    rfl
  · unfold updateTask titleStep completedStep deriveStatus priorityStep
      statusStep dueDateStep
    rw [h]
    rfl

/-- The body `{title: "Jane", completed: "true"}` (completed as a string). -/
def stringCompletedBody : ReqBody :=
  { emptyBody with title := .jstr "Jane", completed := .jstr "true" }

theorem nonboolean_completed_ignored_witness :
    createTask [] 1 stringCompletedBody =
      createTask [] 1 { stringCompletedBody with completed := JVal.absent } ∧
    updateTask [sampleTask] 1 1 stringCompletedBody =
      updateTask [sampleTask] 1 1
        { stringCompletedBody with completed := JVal.absent } :=
  ⟨(nonboolean_completed_ignored [] 1 1 stringCompletedBody (by decide)).1,
   (nonboolean_completed_ignored [sampleTask] 1 1 stringCompletedBody
      (by decide)).2⟩

end TaskTracker

namespace TaskTracker

/-- A stored task with a due date set. -/
def duedTask : Task :=
  { id := 1, owner_id := 1, title := "Jane", completed := false,
    priority := "pt", status := "scheduled", due_date := some "2024-01-01" }

/-- The body `{dueDate: null}`. -/
def dueNullBody : ReqBody := { emptyBody with dueDate := .jnull }

/-- The body `{dueDate: "  "}`. -/
def dueBlankBody : ReqBody := { emptyBody with dueDate := .jstr "  " }

/-- The body `{dueDate: " 2024-02-03 "}`. -/
def dueSetBody : ReqBody := { emptyBody with dueDate := .jstr " 2024-02-03 " }

theorem due_date_clearing_witness :
    ({ duedTask with due_date := none } : Task).due_date = none ∧
    ({ sampleTask with due_date := none } : Task).due_date = none ∧
    ({ duedTask with due_date := some "2024-02-03" } : Task).due_date =
      some (jsTrim " 2024-02-03 ") :=
  ⟨(due_date_clearing [duedTask] 1 1 dueNullBody (by decide)).1
      (by decide) _ (by decide) (by decide) (by decide),
   (due_date_clearing [sampleTask] 1 1 dueBlankBody (by decide)).2.1
      "  " (by decide) (by decide) _ (by decide) (by decide) (by decide),
   (due_date_clearing [duedTask] 1 1 dueSetBody (by decide)).2.2.1
      " 2024-02-03 " (by decide) (by decide) _ (by decide) (by decide)
      (by decide)⟩

end TaskTracker

namespace TaskTracker

/-- The title stored by a create: `String(body.title || "").trim()`. -/
def createdTitle (body : ReqBody) : String := jsTrim (body.title.strOr "")

/-- The priority stored by a create: `String(body.priority || "pt").trim()`. -/
def createdPriority (body : ReqBody) : String := jsTrim (body.priority.strOr "pt")

/-- The status stored by a create:
`String(body.status || "scheduled").trim()`. -/
def createdStatus (body : ReqBody) : String :=
  jsTrim (body.status.strOr "scheduled")

/-- The completed flag stored by a create: the supplied boolean, else
`status === "completed"`. -/
def createdCompleted (body : ReqBody) : Bool :=
  match body.completed.asBool with
  | some b => b
  | none => createdStatus body == "completed"

/-- The due_date stored by a create: the trimmed supplied value when truthy,
with an empty trim falling back to null (`dueDate || null`). -/
def createdDueDate (body : ReqBody) : Option String :=
  match (if body.dueDate.falsy then none
    else some (jsTrim body.dueDate.toStr)) with
  | some s => if s == "" then none else some s
  | none => none

lemma createTask_success (store : Store) (uid : Nat) (body : ReqBody)
    (h1 : ¬((createdTitle body).length < 2))
    (h2 : allowedPriorities.contains (createdPriority body) = true)
    (h3 : allowedStatuses.contains (createdStatus body) = true) :
    createTask store uid body =
      (CreateResult.created
        { id := nextId store, title := createdTitle body,
          completed := createdCompleted body,
          priority := createdPriority body, status := createdStatus body,
          dueDate := createdDueDate body },
       store ++
        [{ id := nextId store, owner_id := uid, title := createdTitle body,
           completed := createdCompleted body,
           priority := createdPriority body, status := createdStatus body,
           due_date := createdDueDate body }]) := by
  unfold createdTitle createdPriority createdStatus createdCompleted
    createdDueDate at *
  unfold createTask
  dsimp only
  rw [if_neg h1, if_neg (by rw [h2]; simp), if_neg (by rw [h3]; simp)]
  rfl

lemma createTask_created_eq (store : Store) (uid : Nat) (body : ReqBody)
    (resp : TaskResponse)
    (hok : (createTask store uid body).fst = CreateResult.created resp) :
    resp =
      { id := nextId store, title := createdTitle body,
        completed := createdCompleted body, priority := createdPriority body,
        status := createdStatus body, dueDate := createdDueDate body } ∧
    (createTask store uid body).snd =
      store ++
        [{ id := nextId store, owner_id := uid, title := createdTitle body,
           completed := createdCompleted body,
           priority := createdPriority body, status := createdStatus body,
           due_date := createdDueDate body }] := by
  by_cases h1 : ((createdTitle body).length < 2)
  · unfold createTask at hok
    dsimp only at hok
    rw [if_pos (by simpa [createdTitle] using h1)] at hok
    simp at hok
  by_cases h2 : allowedPriorities.contains (createdPriority body) = true
  swap
  · unfold createTask at hok
    dsimp only at hok
    rw [if_neg (by simpa [createdTitle] using h1),
      if_pos (by simp [createdPriority] at h2 ⊢; simpa using h2)] at hok
    simp at hok
  by_cases h3 : allowedStatuses.contains (createdStatus body) = true
  swap
  · unfold createTask at hok
    dsimp only at hok
    rw [if_neg (by simpa [createdTitle] using h1),
      if_neg (by simp [createdPriority] at h2 ⊢; simpa using h2),
      if_pos (by simp [createdStatus] at h3 ⊢; simpa using h3)] at hok
    simp at hok
  have heq := createTask_success store uid body h1 h2 h3
  rw [heq] at hok ⊢
  dsimp only at hok ⊢
  rw [CreateResult.created.injEq] at hok
  exact ⟨hok.symm, rfl⟩

end TaskTracker

namespace TaskTracker

lemma strOr_jstr_empty (s : String) : (JVal.jstr s).strOr "" = s := by
  by_cases h : s = "" <;> simp [JVal.strOr, JVal.falsy, JVal.toStr, h]

/-- C5 (create defaults and title boundary): a create whose title trims to
length 1 is rejected naming the title; a create whose title trims to length 2
with priority, status and completed absent succeeds and stores priority "pt",
status "scheduled" and completed false. -/
theorem create_defaults_title_boundary :
    (∀ (store : Store) (uid : Nat) (body : ReqBody) (s : String),
      body.title = JVal.jstr s → (jsTrim s).length = 1 →
      createTask store uid body =
        (CreateResult.validationError "Title must be at least 2 characters.",
          store)) ∧
    (∀ (store : Store) (uid : Nat) (body : ReqBody) (s : String),
      body.title = JVal.jstr s → (jsTrim s).length = 2 →
      body.priority = JVal.absent → body.status = JVal.absent →
      body.completed = JVal.absent →
      createTask store uid body =
        (CreateResult.created
          { id := nextId store, title := jsTrim s, completed := false,
            priority := "pt", status := "scheduled",
            dueDate := createdDueDate body },
         store ++
          [{ id := nextId store, owner_id := uid, title := jsTrim s,
             completed := false, priority := "pt", status := "scheduled",
             due_date := createdDueDate body }])) := by
  constructor
  · intro store uid body s hT hlen
    unfold createTask
    dsimp only
    rw [hT, strOr_jstr_empty, hlen]
    rw [if_pos (by norm_num)]
  · intro store uid body s hT hlen hP hS hC
    have e1 : createdTitle body = jsTrim s := by
      simp only [createdTitle, hT, strOr_jstr_empty]
    have e2 : createdPriority body = "pt" := by
      simp only [createdPriority, hP]
      rfl
    have e3 : createdStatus body = "scheduled" := by
      simp only [createdStatus, hS]
      rfl
    have e4 : createdCompleted body = false := by
      simp only [createdCompleted, hC, e3]
      rfl
    rw [createTask_success store uid body (by rw [e1, hlen]; norm_num)
        (by rw [e2]; decide) (by rw [e3]; decide)]
    rw [e1, e2, e3, e4]

end TaskTracker

namespace TaskTracker

/-- The body `{title: "J"}`. -/
def titleJBody : ReqBody := { emptyBody with title := .jstr "J" }

/-- The body `{title: "ab"}`. -/
def titleAbBody : ReqBody := { emptyBody with title := .jstr "ab" }

theorem create_defaults_title_boundary_witness :
    createTask [] 1 titleJBody =
      (CreateResult.validationError "Title must be at least 2 characters.",
        []) ∧
    createTask [] 1 titleAbBody =
      (CreateResult.created
        { id := nextId [], title := jsTrim "ab", completed := false,
          priority := "pt", status := "scheduled",
          dueDate := createdDueDate titleAbBody },
       [] ++
        [{ id := nextId [], owner_id := 1, title := jsTrim "ab",
           completed := false, priority := "pt", status := "scheduled",
           due_date := createdDueDate titleAbBody }]) :=
  ⟨create_defaults_title_boundary.1 [] 1 titleJBody "J" (by decide) (by decide),
   create_defaults_title_boundary.2 [] 1 titleAbBody "ab" (by decide)
     (by decide) (by decide) (by decide) (by decide)⟩

/-- The body `{title: "ab", dueDate: " x "}`. -/
def verbatimDueBody : ReqBody :=
  { emptyBody with title := .jstr "ab", dueDate := .jstr " x " }

theorem due_date_passthrough_cex :
    createTask [] 7 verbatimDueBody =
      (CreateResult.created
        { id := 1, title := "ab", completed := false, priority := "pt",
          status := "scheduled", dueDate := some "x" },
       [{ id := 1, owner_id := 7, title := "ab", completed := false,
          priority := "pt", status := "scheduled", due_date := some "x" }]) ∧
    (some "x" : Option String) ≠ some " x " := by decide

lemma createdDueDate_jstr (body : ReqBody) (s : String)
    (hd : body.dueDate = JVal.jstr s) :
    createdDueDate body =
      (if jsTrim s = "" then none else some (jsTrim s)) := by
  unfold createdDueDate
  rw [hd]
  by_cases hs0 : s = ""
  · subst hs0
    have h0 : jsTrim "" = "" := rfl
    simp [JVal.falsy, JVal.toStr, h0]
  · have hf : (JVal.jstr s).falsy = false := by simp [JVal.falsy, hs0]
    rw [hf]
    dsimp only [JVal.toStr]
    by_cases hts : jsTrim s = "" <;> simp [hts]

/-- C6 amended (due-date on create is trimmed, not verbatim): for a
successful create that supplies dueDate as a string, the response's dueDate
and the inserted row's due_date are the trimmed supplied value, stored as
null when the value trims to the empty string. -/
theorem due_date_trimmed_amended (store : Store) (uid : Nat) (body : ReqBody)
    (s : String) (resp : TaskResponse) (hd : body.dueDate = JVal.jstr s)
    (hok : (createTask store uid body).fst = CreateResult.created resp) :
    resp.dueDate = (if jsTrim s = "" then none else some (jsTrim s)) ∧
    (createTask store uid body).snd.getLast?.map Task.due_date =
      some (if jsTrim s = "" then none else some (jsTrim s)) := by
  obtain ⟨hresp, hsnd⟩ := createTask_created_eq store uid body resp hok
  have hdd := createdDueDate_jstr body s hd
  constructor
  · rw [hresp]
    exact hdd
  · rw [hsnd, List.getLast?_concat]
    simp only [Option.map_some']
    exact congrArg some hdd

theorem due_date_trimmed_amended_witness :
    ({ id := 1, title := "ab", completed := false, priority := "pt",
       status := "scheduled", dueDate := some "x" } : TaskResponse).dueDate =
      (if jsTrim " x " = "" then none else some (jsTrim " x ")) ∧
    (createTask [] 7 verbatimDueBody).snd.getLast?.map Task.due_date =
      some (if jsTrim " x " = "" then none else some (jsTrim " x ")) :=
  due_date_trimmed_amended [] 7 verbatimDueBody " x "
    { id := 1, title := "ab", completed := false, priority := "pt",
      status := "scheduled", dueDate := some "x" } (by decide) (by decide)

end TaskTracker

namespace TaskTracker

lemma titleStep_error {s : Store} {tid uid : Nat} {v : JVal}
    {e : String × Store} (h : titleStep s tid uid v = Except.error e) :
    e = ("Title must be at least 2 characters.", s) := by
  rcases hT : v.asString with _ | str <;> simp only [titleStep, hT] at h
  · simp at h
  · split at h
    · exact (Except.error.inj h).symm
    · simp at h

lemma priorityStep_error {s : Store} {tid uid : Nat} {v : JVal}
    {e : String × Store} (h : priorityStep s tid uid v = Except.error e) :
    e = ("Invalid priority value.", s) := by
  rcases hP : v.asString with _ | p <;> simp only [priorityStep, hP] at h
  · simp at h
  · split at h
    · simp at h
    · exact (Except.error.inj h).symm

lemma statusStep_error {s : Store} {tid uid : Nat} {sv cv : JVal}
    {e : String × Store} (h : statusStep s tid uid sv cv = Except.error e) :
    e = ("Invalid status value.", s) := by
  rcases hS : sv.asString with _ | st <;> simp only [statusStep, hS] at h
  · simp at h
  · split at h
    · rcases hC : cv.asBool with _ | b <;> simp [hC] at h
    · exact (Except.error.inj h).symm

/-- The body `{title: "Gym", priority: "bogus"}`. -/
def titleBadPriorityBody : ReqBody :=
  { emptyBody with title := .jstr "Gym", priority := .jstr "bogus" }

theorem validation_before_mutation_cex :
    (updateTask [sampleTask] 1 1 titleBadPriorityBody).fst =
      ApiResult.validationError "Invalid priority value." ∧
    (updateTask [sampleTask] 1 1 titleBadPriorityBody).snd =
      [{ sampleTask with title := "Gym" }] ∧
    ({ sampleTask with title := "Gym" } : Task) ≠ sampleTask := by decide

/-- C3 amended (validation versus mutation): on the create route every
validation runs before the insert, so a create failing with a
ValidationError leaves the store unchanged; on the update route the field
blocks run in order, so only a failure of the first block (title) is
guaranteed to leave the store unchanged — a later priority or status failure
keeps the writes already issued (see the counterexample). -/
theorem validation_before_mutation_amended :
    (∀ (store : Store) (uid : Nat) (body : ReqBody) (msg : String),
      (createTask store uid body).fst = CreateResult.validationError msg →
      (createTask store uid body).snd = store) ∧
    (∀ (store : Store) (tid uid : Nat) (body : ReqBody),
      (updateTask store tid uid body).fst =
        ApiResult.validationError "Title must be at least 2 characters." →
      (updateTask store tid uid body).snd = store) := by
  constructor
  · intro store uid body msg h
    unfold createTask at h ⊢
    dsimp only at h ⊢
    by_cases h1 : (jsTrim (body.title.strOr "")).length < 2
    · rw [if_pos h1]
    rw [if_neg h1] at h ⊢
    by_cases h2 :
        (!allowedPriorities.contains (jsTrim (body.priority.strOr "pt")))
          = true
    · rw [if_pos h2]
    rw [if_neg h2] at h ⊢
    by_cases h3 :
        (!allowedStatuses.contains (jsTrim (body.status.strOr "scheduled")))
          = true
    · rw [if_pos h3]
    rw [if_neg h3] at h
    simp at h
  · intro store tid uid body h
    unfold updateTask at h ⊢
    by_cases hfind : findTaskForUser store tid uid = true
    · rw [if_pos hfind] at h ⊢
      dsimp only at h ⊢
      rcases hts : titleStep store tid uid body.title with e | s1
      · rcases e with ⟨msg2, s2⟩
        rw [hts] at h
        dsimp only at h ⊢
        have he := titleStep_error hts
        rw [Prod.mk.injEq] at he
        exact he.2
      · rw [hts] at h
        dsimp only at h ⊢
        rcases hps : priorityStep (completedStep s1 tid uid body.completed)
            tid uid body.priority with e | s3
        · rcases e with ⟨msg2, s2⟩
          rw [hps] at h
          dsimp only at h
          have he := priorityStep_error hps
          rw [Prod.mk.injEq] at he
          rw [he.1] at h
          simp at h
        · rw [hps] at h
          dsimp only at h ⊢
          rcases hss : statusStep s3 tid uid
              (deriveStatus body.completed body.status) body.completed
            with e | s4
          · rcases e with ⟨msg2, s2⟩
            rw [hss] at h
            dsimp only at h
            have he := statusStep_error hss
            rw [Prod.mk.injEq] at he
            rw [he.1] at h
            simp at h
          · rw [hss] at h
            dsimp only at h
            simp at h
    · rw [if_neg hfind] at h
      simp at h

/-- The body `{title: "x"}` (trims to length 1). -/
def titleShortBody : ReqBody := { emptyBody with title := .jstr "x" }

theorem validation_before_mutation_amended_witness :
    (createTask [] 1 titleJBody).snd = [] ∧
    (updateTask [sampleTask] 1 1 titleShortBody).snd = [sampleTask] :=
  ⟨validation_before_mutation_amended.1 [] 1 titleJBody
      "Title must be at least 2 characters." (by decide),
   validation_before_mutation_amended.2 [sampleTask] 1 1 titleShortBody
      (by decide)⟩

end TaskTracker
